import Mathlib

/-!
Verification of the tool registration/dispatch framework of the
agentic-investor repository: the retry policy of the resilient fetch
layer, the validators, the tabular normalizer, and selected tool
execute paths. Python strings are modelled as lists of characters;
raising an exception is modelled with Except.
-/

/-- Python membership test helper: whether the first list occurs at the
head of the second list (character-wise equality). -/
def startsWith : List Char → List Char → Bool
  | [], _ => true
  | _ :: _, [] => false
  | a :: as, b :: bs => a == b && startsWith as bs

/-- Python substring test, as in the expression term in text: true iff
the needle occurs contiguously inside the haystack. -/
def containsSub (needle : List Char) : List Char → Bool
  | [] => startsWith needle []
  | b :: bs => startsWith needle (b :: bs) || containsSub needle bs

/-- Python str.lower restricted to ASCII letters, applied characterwise. -/
def lowerChar (c : Char) : Char :=
  if 65 ≤ c.toNat && c.toNat ≤ 90 then Char.ofNat (c.toNat + 32) else c

/-- Python str.upper restricted to ASCII letters, applied characterwise. -/
def upperChar (c : Char) : Char :=
  if 97 ≤ c.toNat && c.toNat ≤ 122 then Char.ofNat (c.toNat - 32) else c

/-- Lowercase an entire string, as Python str.lower over ASCII text. -/
def strLower (s : List Char) : List Char := s.map lowerChar

/-- Uppercase an entire string, as Python str.upper over ASCII text. -/
def strUpper (s : List Char) : List Char := s.map upperChar

/-- An exception value as observed by the retry classifier in
api_retry: the text of str(e), the status_code attribute when the
exception has one, and whether the exception is a YFRateLimitError. -/
structure PyExc where
  message : List Char
  statusCode : Option Int
  isRateLimit : Bool
deriving Repr, DecidableEq

/-- The fixed substring list of api_retry in
agentic_investor/utils/yfinance_helpers.py and investor_agent/server.py
(the two copies are identical). -/
def transientTerms : List (List Char) :=
  ["rate limit".toList, "too many requests".toList,
   "temporarily blocked".toList, "timeout".toList, "connection".toList,
   "network".toList, "temporary".toList, "5".toList, "429".toList,
   "502".toList, "503".toList, "504".toList]

/-- The retry predicate of api_retry: YFRateLimitError, or a
status_code attribute of at least 500, or any of the fixed substrings
occurring in the lowercased exception text. -/
def isTransient (e : PyExc) : Bool :=
  e.isRateLimit
    || (match e.statusCode with
        | some c => decide (500 ≤ c)
        | none => false)
    || transientTerms.any (fun t => containsSub t (strLower e.message))

/-- Result of one call attempt of the wrapped operation: the returned
value, or the raised exception. -/
inductive Outcome (α : Type) where
  | ok : α → Outcome α
  | exc : PyExc → Outcome α
deriving Repr, DecidableEq

/-- Terminal result of running an api_retry-wrapped operation: success
with the 1-based number of the succeeding attempt; an exception
propagated unchanged because the retry predicate rejected it; or the
retry-exhaustion error (tenacity RetryError, raised with the default
reraise=False once stop_after_attempt is reached) wrapping the last
attempt's exception. fuelOut is an artifact of the fuelled recursion
and is proved unreachable from apiRetryRun. -/
inductive RetryResult (α : Type) where
  | success : α → Nat → RetryResult α
  | raised : PyExc → Nat → RetryResult α
  | retryExhausted : PyExc → Nat → RetryResult α
  | fuelOut : RetryResult α
deriving Repr, DecidableEq

/-- The tenacity retry loop as configured by api_retry: run attempt n;
on success return the value; on an exception rejected by the predicate
re-raise it unchanged; on an accepted exception stop with RetryError
when stop_after_attempt is reached (attempt number at least stopAfter),
otherwise wait and run the next attempt. The attempts function gives
the outcome of each 1-based attempt. -/
def retrySteps {α : Type} (stopAfter : Nat) (attempts : Nat → Outcome α) :
    Nat → Nat → RetryResult α
  | 0, _ => .fuelOut
  | fuel + 1, n =>
    match attempts n with
    | .ok v => .success v n
    | .exc e =>
      if isTransient e then
        if stopAfter ≤ n then .retryExhausted e n
        else retrySteps stopAfter attempts fuel (n + 1)
      else .raised e n

/-- Running an operation wrapped by api_retry: stop_after_attempt(3),
starting from attempt 1. -/
def apiRetryRun {α : Type} (attempts : Nat → Outcome α) : RetryResult α :=
  retrySteps 3 attempts 3 1

/-- Number of attempts consumed by a finished retry run. -/
def attemptsUsed {α : Type} : RetryResult α → Nat
  | .success _ n => n
  | .raised _ n => n
  | .retryExhausted _ n => n
  | .fuelOut => 0

/-- Characters produced by Char.ofNat on a valid code point keep their
numeric value. -/
theorem toNat_ofNat_valid (n : Nat) (h : n.isValidChar) :
    (Char.ofNat n).toNat = n := by
  rw [Char.ofNat, dif_pos h]
  rfl

/-- The substrings of the claimed transient classification: rate
limiting, timeouts, connection/network issues, and the status codes
429, 502, 503, 504. This is the list of api_retry minus the bare
substring consisting of the single digit 5. -/
def claimTransientTerms : List (List Char) :=
  ["rate limit".toList, "too many requests".toList,
   "temporarily blocked".toList, "timeout".toList, "connection".toList,
   "network".toList, "temporary".toList, "429".toList,
   "502".toList, "503".toList, "504".toList]

/-- An exception that is none of the claimed transient categories: no
status_code attribute, not a rate-limit error, and a message free of
every claimed substring, but containing the digit 5. -/
def c1Exc : PyExc := ⟨"found 5 rows".toList, none, false⟩

/-- Attempt sequence whose first call raises c1Exc and whose later
calls succeed. -/
def c1Attempts : Nat → Outcome Nat := fun n => if n = 1 then .exc c1Exc else .ok 42

/-- C1 counterexample: c1Exc matches none of the transient categories
named by the claim, yet api_retry retries it (the run consults attempt
2 and returns its value) instead of propagating it after the first
attempt, because the fixed substring list of the source contains the
bare term consisting of the digit 5. -/
theorem c1_counterexample :
    c1Exc.isRateLimit = false ∧ c1Exc.statusCode = none
      ∧ claimTransientTerms.all
          (fun t => !containsSub t (strLower c1Exc.message)) = true
      ∧ apiRetryRun c1Attempts = RetryResult.success 42 2
      ∧ apiRetryRun c1Attempts ≠ RetryResult.raised c1Exc 1 := by
  decide

/-- C1 amended: a first-attempt failure is retried exactly when the
classifier of the source accepts it, namely when it is a rate-limit
error, has a status code of at least 500, or its lowercased message
contains one of the fixed substrings of transientTerms, a list that
includes the bare digit 5; every other failure propagates unchanged
after the first attempt with no retry. -/
theorem c1_amended {α : Type} (attempts : Nat → Outcome α) (e : PyExc)
    (h1 : attempts 1 = .exc e) :
    (isTransient e = false → apiRetryRun attempts = .raised e 1)
    ∧ (isTransient e = true → ∀ v, attempts 2 = .ok v →
        apiRetryRun attempts = .success v 2)
    ∧ (isTransient e = true ↔
        e.isRateLimit = true
        ∨ (∃ c : Int, e.statusCode = some c ∧ 500 ≤ c)
        ∨ ∃ t ∈ transientTerms, containsSub t (strLower e.message) = true) := by
  refine ⟨?_, ?_, ?_⟩
  · intro h
    simp [apiRetryRun, retrySteps, h1, h]
  · intro h v h2
    simp [apiRetryRun, retrySteps, h1, h, h2]
  · rw [isTransient]
    rcases hs : e.statusCode with _ | c <;>
      simp [hs, Bool.or_eq_true, List.any_eq_true, decide_eq_true_eq, or_assoc]

/-- A failure that the classifier rejects: plain bad-input error. -/
def c1WitExc : PyExc := ⟨"bad ticker".toList, none, false⟩

/-- Attempt sequence that always raises c1WitExc. -/
def c1WitAttempts : Nat → Outcome Nat := fun _ => .exc c1WitExc

/-- Witness for c1_amended at a concrete non-transient failure: the
run propagates it after attempt 1. -/
theorem c1_amended_witness :
    apiRetryRun c1WitAttempts = RetryResult.raised c1WitExc 1 :=
  (c1_amended c1WitAttempts c1WitExc rfl).1 (by decide)

/-- Attempts consumed by a run started at attempt n with n at most 3
never exceed 3. -/
theorem attemptsUsed_le {α : Type} (attempts : Nat → Outcome α) :
    ∀ fuel n, n ≤ 3 → attemptsUsed (retrySteps 3 attempts fuel n) ≤ 3 := by
  intro fuel
  induction fuel with
  | zero => intro n _; simp [retrySteps, attemptsUsed]
  | succ fuel ih =>
    intro n hn
    rw [retrySteps]
    cases attempts n with
    | ok v => simpa [attemptsUsed] using hn
    | exc e =>
      by_cases ht : isTransient e
      · by_cases hstop : 3 ≤ n
        · simpa [ht, hstop, attemptsUsed] using hn
        · have := ih (n + 1) (by omega)
          simpa [ht, hstop, attemptsUsed] using this
      · simpa [ht, attemptsUsed] using hn

/-- A run entered with enough fuel never runs out of fuel. -/
theorem retrySteps_ne_fuelOut {α : Type} (attempts : Nat → Outcome α) :
    ∀ fuel n, n ≤ 3 → 4 ≤ n + fuel →
      retrySteps 3 attempts fuel n ≠ RetryResult.fuelOut := by
  intro fuel
  induction fuel with
  | zero => intro n hn hf; omega
  | succ fuel ih =>
    intro n hn hf
    rw [retrySteps]
    cases attempts n with
    | ok v => simp
    | exc e =>
      by_cases ht : isTransient e
      · by_cases hstop : 3 ≤ n
        · simp [ht, hstop]
        · have := ih (n + 1) (by omega) (by omega)
          simpa [ht, hstop] using this
      · simp [ht]

/-- C2 amended: at most 3 attempts are ever made and the run always
terminates in a declared outcome; when the first two attempts fail
transiently and the third succeeds, the run returns the success value
after exactly 3 attempts; when the first two attempts fail transiently
and the third fails as well, the surfaced failure carries the last
attempt's exception, but its kind depends on the classifier: a
transient third failure is surfaced as the retry-exhaustion error
(tenacity RetryError) wrapping it, while a non-transient third failure
is re-raised unchanged. -/
theorem c2_amended {α : Type} (attempts : Nat → Outcome α) :
    attemptsUsed (apiRetryRun attempts) ≤ 3
    ∧ apiRetryRun attempts ≠ RetryResult.fuelOut
    ∧ (∀ e1 e2 v, attempts 1 = .exc e1 → isTransient e1 = true →
        attempts 2 = .exc e2 → isTransient e2 = true →
        attempts 3 = .ok v → apiRetryRun attempts = .success v 3)
    ∧ (∀ e1 e2 e3, attempts 1 = .exc e1 → isTransient e1 = true →
        attempts 2 = .exc e2 → isTransient e2 = true →
        attempts 3 = .exc e3 →
        apiRetryRun attempts =
          if isTransient e3 then .retryExhausted e3 3 else .raised e3 3) := by
  refine ⟨attemptsUsed_le attempts 3 1 (by omega),
    retrySteps_ne_fuelOut attempts 3 1 (by omega) (by omega), ?_, ?_⟩
  · intro e1 e2 v h1 t1 h2 t2 h3
    simp [apiRetryRun, retrySteps, h1, t1, h2, t2, h3]
  · intro e1 e2 e3 h1 t1 h2 t2 h3
    by_cases t3 : isTransient e3 <;>
      simp [apiRetryRun, retrySteps, h1, t1, h2, t2, h3, t3]

/-- A transient failure used by the exhaustion counterexample: a
provider rate-limit signal. -/
def c2Exc : PyExc := ⟨"rate limit exceeded".toList, none, true⟩

/-- Attempt sequence that raises c2Exc on every attempt. -/
def c2Attempts : Nat → Outcome Nat := fun _ => .exc c2Exc

/-- C2 counterexample: when all 3 attempts fail transiently, the run
ends in the retry-exhaustion error wrapping the last failure, not in
the last failure itself propagated unchanged in kind. -/
theorem c2_counterexample :
    apiRetryRun c2Attempts = RetryResult.retryExhausted c2Exc 3
    ∧ apiRetryRun c2Attempts ≠ RetryResult.raised c2Exc 3 := by
  decide

/-- A transient failure used by the success witness. -/
def c2WitExc : PyExc := ⟨"timeout while reading".toList, none, false⟩

/-- Attempt sequence failing transiently twice, then succeeding. -/
def c2WitAttempts : Nat → Outcome Nat :=
  fun n => if n ≤ 2 then .exc c2WitExc else .ok 7

/-- Witness for c2_amended: two transient failures then a success give
the success value after exactly 3 attempts. -/
theorem c2_amended_witness :
    apiRetryRun c2WitAttempts = RetryResult.success 7 3 :=
  (c2_amended c2WitAttempts).2.2.1 c2WitExc c2WitExc 7 rfl (by decide)
    rfl (by decide) rfl

/-- Characterwise action of upper after lower agrees with upper alone
over the modelled character range. -/
theorem upperChar_lowerChar (c : Char) : upperChar (lowerChar c) = upperChar c := by
  unfold lowerChar upperChar
  by_cases h : (65 ≤ c.toNat && c.toNat ≤ 90) = true
  · have hb := h
    rw [Bool.and_eq_true, decide_eq_true_eq, decide_eq_true_eq] at hb
    have hv : (c.toNat + 32).isValidChar := Or.inl (by omega)
    rw [if_pos h]
    have ht : (Char.ofNat (c.toNat + 32)).toNat = c.toNat + 32 :=
      toNat_ofNat_valid _ hv
    rw [ht]
    have hc1 : (97 ≤ c.toNat + 32 && c.toNat + 32 ≤ 122) = true := by
      rw [Bool.and_eq_true, decide_eq_true_eq, decide_eq_true_eq]
      omega
    have hc2 : (97 ≤ c.toNat && c.toNat ≤ 122) = false := by
      rw [Bool.eq_false_iff]
      intro hcontra
      rw [Bool.and_eq_true, decide_eq_true_eq, decide_eq_true_eq] at hcontra
      omega
    rw [if_pos hc1, if_neg (by rw [hc2]; exact Bool.false_ne_true)]
    have : c.toNat + 32 - 32 = c.toNat := by omega
    rw [this, Char.ofNat_toNat]
  · rw [if_neg h]

/-- Uppercasing after lowercasing a string equals uppercasing it. -/
theorem strUpper_strLower (s : List Char) : strUpper (strLower s) = strUpper s := by
  induction s with
  | nil => rfl
  | cons c rest ih =>
    simp only [strUpper, strLower, List.map_cons] at *
    rw [upperChar_lowerChar]
    exact congrArg _ ih

/-- Whitespace characters removed by Python str.strip. -/
def isPySpace (c : Char) : Bool :=
  c == ' ' || c == '\t' || c == '\n' || c == '\r' || c.toNat == 11 || c.toNat == 12

/-- Drop leading whitespace. -/
def dropLeadSpace : List Char → List Char
  | [] => []
  | c :: rest => if isPySpace c then dropLeadSpace rest else c :: rest

/-- Python str.strip: remove whitespace from both ends. -/
def pyStrip (s : List Char) : List Char :=
  ((dropLeadSpace ((dropLeadSpace s).reverse)).reverse)

/-- Error raised by the validators (Python ValueError, the
InvalidArgument class of the spec taxonomy). -/
inductive VErr where
  | invalidArgument : List Char → VErr
deriving Repr, DecidableEq

/-- validate_ticker from agentic_investor/utils/validators.py:
uppercase, strip, and fail when the result is empty. -/
def validate_ticker (ticker : List Char) : Except VErr (List Char) :=
  let t := pyStrip (strUpper ticker)
  if t.isEmpty then
    .error (.invalidArgument "Ticker symbol cannot be empty".toList)
  else .ok t

/-- C5: validate_ticker returns the uppercased trimmed string, is
case-insensitive (validating the lowercased input gives the identical
outcome, for every input, valid or not), and fails with InvalidArgument
exactly when the trimmed uppercased result is empty; in particular the
empty string fails. -/
theorem c5_validate_ticker (s : List Char) :
    validate_ticker s = validate_ticker (strLower s)
    ∧ (pyStrip (strUpper s) ≠ [] →
        validate_ticker s = .ok (pyStrip (strUpper s)))
    ∧ ((∃ m, validate_ticker s = .error (.invalidArgument m)) ↔
        pyStrip (strUpper s) = [])
    ∧ validate_ticker ([] : List Char) =
        .error (.invalidArgument "Ticker symbol cannot be empty".toList) := by
  refine ⟨?_, ?_, ?_, rfl⟩
  · unfold validate_ticker
    rw [strUpper_strLower]
  · intro h
    unfold validate_ticker
    rw [if_neg (by simpa [List.isEmpty_iff] using h)]
  · unfold validate_ticker
    rcases hs : pyStrip (strUpper s) with _ | ⟨c, rest⟩ <;> simp

/-- Witness for c5_validate_ticker at a concrete ticker. -/
theorem c5_validate_ticker_witness :
    validate_ticker "aapl".toList =
      .ok (pyStrip (strUpper "aapl".toList)) :=
  (c5_validate_ticker "aapl".toList).2.1 (by decide)

/-- Decimal digit test. -/
def isDigitCh (c : Char) : Bool := 48 ≤ c.toNat && c.toNat ≤ 57

/-- Gregorian leap-year rule used by the datetime library. -/
def isLeapYear (y : Nat) : Bool :=
  y % 4 == 0 && (y % 100 != 0 || y % 400 == 0)

/-- Days in a month of a given year. -/
def daysInMonth (y m : Nat) : Nat :=
  if m == 2 then (if isLeapYear y then 29 else 28)
  else if m == 4 || m == 6 || m == 9 || m == 11 then 30
  else 31

/-- A calendar date as produced by datetime.date. -/
structure PyDate where
  year : Nat
  month : Nat
  day : Nat
deriving Repr, DecidableEq

/-- The year directive of strptime: exactly four digit characters
(years below 1000 must be zero-padded). -/
def parseYear4 : List Char → Option (Nat × List Char)
  | a :: b :: c2 :: d :: rest =>
    if isDigitCh a && isDigitCh b && isDigitCh c2 && isDigitCh d then
      some ((((a.toNat - 48) * 10 + (b.toNat - 48)) * 10 + (c2.toNat - 48)) * 10
        + (d.toNat - 48), rest)
    else none
  | _ => none

/-- The month directive of strptime, whose regex alternatives are
tried in order: a one digit followed by zero to two, a zero followed
by a nonzero digit, or a bare nonzero digit — months 1 to 12, with no
space padding. A dash follows the month in this format, so the
greedy first alternative never hides an otherwise-successful parse. -/
def parseMonth : List Char → Option (Nat × List Char)
  | [] => none
  | ch :: rest =>
    if ch == '1' then
      match rest with
      | c2 :: rest2 =>
        if 48 ≤ c2.toNat && c2.toNat ≤ 50 then some (10 + (c2.toNat - 48), rest2)
        else some (1, c2 :: rest2)
      | [] => some (1, [])
    else if ch == '0' then
      match rest with
      | c2 :: rest2 =>
        if 49 ≤ c2.toNat && c2.toNat ≤ 57 then some (c2.toNat - 48, rest2)
        else none
      | [] => none
    else if 50 ≤ ch.toNat && ch.toNat ≤ 57 then some (ch.toNat - 48, rest)
    else none

/-- The day directive of strptime, alternatives in order: a three
followed by zero or one, a one or two followed by any digit, a zero
followed by a nonzero digit, a bare nonzero digit, or a space-padded
nonzero digit — days 1 to 31, a single digit optionally space-padded.
The day ends this format, so leftover characters fail the whole parse
as unconverted data whichever alternative matched. -/
def parseDay : List Char → Option (Nat × List Char)
  | [] => none
  | ch :: rest =>
    if ch == '3' then
      match rest with
      | c2 :: rest2 =>
        if c2 == '0' || c2 == '1' then some (30 + (c2.toNat - 48), rest2)
        else some (3, c2 :: rest2)
      | [] => some (3, [])
    else if ch == '1' || ch == '2' then
      match rest with
      | c2 :: rest2 =>
        if isDigitCh c2 then
          some ((ch.toNat - 48) * 10 + (c2.toNat - 48), rest2)
        else some (ch.toNat - 48, c2 :: rest2)
      | [] => some (ch.toNat - 48, [])
    else if ch == '0' then
      match rest with
      | c2 :: rest2 =>
        if 49 ≤ c2.toNat && c2.toNat ≤ 57 then some (c2.toNat - 48, rest2)
        else none
      | [] => none
    else if 52 ≤ ch.toNat && ch.toNat ≤ 57 then some (ch.toNat - 48, rest)
    else if ch == ' ' then
      match rest with
      | c2 :: rest2 =>
        if 49 ≤ c2.toNat && c2.toNat ≤ 57 then some (c2.toNat - 48, rest2)
        else none
      | [] => none
    else none

/-- strptime with the fixed format of validate_date, then the date
constructor: exactly four year digits, a literal dash, a month per the
month directive, a literal dash, a day per the day directive (a single
day digit may be space-padded), the whole input consumed; the
constructor then rejects year zero and a day beyond the month's
length. -/
def parseYMD (s : List Char) : Option PyDate :=
  match parseYear4 s with
  | none => none
  | some (y, r1) =>
    match r1 with
    | '-' :: r2 =>
      match parseMonth r2 with
      | none => none
      | some (m, r3) =>
        match r3 with
        | '-' :: r4 =>
          match parseDay r4 with
          | none => none
          | some (d, r5) =>
            if r5.isEmpty then
              if 1 ≤ y ∧ d ≤ daysInMonth y m then some ⟨y, m, d⟩ else none
            else none
        | _ => none
    | _ => none

/-- validate_date from agentic_investor/utils/validators.py: strict
YYYY-MM-DD parsing, with a descriptive InvalidArgument naming the
offending string on failure. -/
def validate_date (s : List Char) : Except VErr PyDate :=
  match parseYMD s with
  | some d => .ok d
  | none =>
    .error (.invalidArgument
      ("Invalid date format: ".toList ++ s ++ ". Use YYYY-MM-DD".toList))

/-- Strict chronological order on dates. -/
def dateLt (a b : PyDate) : Bool :=
  a.year < b.year
    || (a.year == b.year
        && (a.month < b.month || (a.month == b.month && a.day < b.day)))

/-- Parse one optional bound as validate_date_range does: a missing or
empty (falsy) bound is never parsed; a present non-empty bound goes
through validate_date. -/
def optParseDate : Option (List Char) → Except VErr (Option PyDate)
  | none => .ok none
  | some s => if s.isEmpty then .ok none else (validate_date s).map some

/-- validate_date_range from agentic_investor/utils/validators.py:
parse each truthy bound, then fail when both parsed and the start is
after the end. -/
def validate_date_range (startS endS : Option (List Char)) :
    Except VErr Unit := do
  let sd ← optParseDate startS
  let ed ← optParseDate endS
  match sd, ed with
  | some d1, some d2 =>
    if dateLt d2 d1 then
      .error (.invalidArgument
        "start_date must be before or equal to end_date".toList)
    else .ok ()
  | _, _ => .ok ()

/-- C10: an empty-string bound behaves exactly like an absent bound; a
present non-empty malformed bound raises InvalidArgument even when the
other bound is absent or unparsable; and when both bounds parse, the
call fails precisely when the start is after the end. -/
theorem c10_validate_date_range (a b : Option (List Char)) :
    validate_date_range (some []) b = validate_date_range none b
    ∧ validate_date_range a (some []) = validate_date_range a none
    ∧ (∀ s, a = some s → s ≠ [] → parseYMD s = none →
        ∃ m, validate_date_range a b = .error (.invalidArgument m))
    ∧ (∀ s, b = some s → s ≠ [] → parseYMD s = none →
        ∃ m, validate_date_range a b = .error (.invalidArgument m))
    ∧ (∀ s1 s2 d1 d2, a = some s1 → parseYMD s1 = some d1 →
        b = some s2 → parseYMD s2 = some d2 →
        validate_date_range a b =
          if dateLt d2 d1 then
            .error (.invalidArgument
              "start_date must be before or equal to end_date".toList)
          else .ok ()) := by
  refine ⟨rfl, ?_, ?_, ?_, ?_⟩
  · rfl
  · rintro s rfl hne hp
    rcases s with _ | ⟨c, cs⟩
    · exact absurd rfl hne
    · refine ⟨"Invalid date format: ".toList ++ (c :: cs)
        ++ ". Use YYYY-MM-DD".toList, ?_⟩
      simp [validate_date_range, optParseDate, validate_date, hp, Except.map,
        Bind.bind, Except.bind]
  · rintro s hb hne hp
    subst hb
    rcases s with _ | ⟨c, cs⟩
    · exact absurd rfl hne
    · rcases hoa : optParseDate a with e | sd
      · rcases e with ⟨m⟩
        refine ⟨m, ?_⟩
        simp [validate_date_range, hoa, Bind.bind, Except.bind]
      · refine ⟨"Invalid date format: ".toList ++ (c :: cs)
          ++ ". Use YYYY-MM-DD".toList, ?_⟩
        simp only [validate_date_range, Bind.bind, Except.bind, hoa]
        simp [optParseDate, validate_date, hp, Except.map]
  · rintro s1 s2 d1 d2 rfl hp1 rfl hp2
    have h1 : s1 ≠ [] := by
      rintro rfl
      rw [show parseYMD ([] : List Char) = none from rfl] at hp1
      exact Option.noConfusion hp1
    have h2 : s2 ≠ [] := by
      rintro rfl
      rw [show parseYMD ([] : List Char) = none from rfl] at hp2
      exact Option.noConfusion hp2
    rcases s1 with _ | ⟨c1, cs1⟩
    · exact absurd rfl h1
    rcases s2 with _ | ⟨c2, cs2⟩
    · exact absurd rfl h2
    simp [validate_date_range, optParseDate, validate_date, hp1, hp2,
      Except.map, Bind.bind, Except.bind]

/-- Witness for c10_validate_date_range: a reversed concrete range is
rejected. -/
theorem c10_validate_date_range_witness :
    validate_date_range (some "2024-01-02".toList) (some "2024-01-01".toList) =
      if dateLt ⟨2024, 1, 1⟩ ⟨2024, 1, 2⟩ then
        Except.error (VErr.invalidArgument
          "start_date must be before or equal to end_date".toList)
      else Except.ok () :=
  (c10_validate_date_range _ _).2.2.2.2 _ _ _ _ rfl (by decide) rfl (by decide)

/-- A cell of a two-dimensional labeled table as to_clean_csv observes
it: missing (NaN/None), a string, or a number. Numeric values are
modelled as integers; the discriminations at issue are between
missing, empty-string and zero values. -/
inductive Cell where
  | na : Cell
  | txt : List Char → Cell
  | num : Int → Cell
deriving Repr, DecidableEq

/-- Column dtype as tested by the expression comparing df.dtypes with
the object dtype. -/
inductive Dtype where
  | object : Dtype
  | numeric : Dtype
deriving Repr, DecidableEq

/-- A labeled column: name, dtype, and its cells in row order. -/
structure Column where
  name : List Char
  dtype : Dtype
  cells : List Cell
deriving Repr, DecidableEq

/-- A DataFrame: the row count and the columns in order. -/
structure DFrame where
  nrows : Nat
  cols : List Column
deriving Repr, DecidableEq

/-- Well-formed frame: every column holds exactly nrows cells. -/
def DFrame.wf (df : DFrame) : Prop :=
  ∀ c ∈ df.cols, c.cells.length = df.nrows

/-- Elementwise df.notna: false exactly on missing cells. -/
def cellNotNa : Cell → Bool
  | .na => false
  | _ => true

/-- Elementwise comparison of a cell with the empty string: a missing
value compares unequal (NaN inequality is true in pandas), a number
compares unequal, a string compares by content. -/
def cellNeEmpty : Cell → Bool
  | .na => true
  | .txt s => !s.isEmpty
  | .num _ => true

/-- Elementwise comparison of a cell with zero: a missing value and any
string compare unequal, a number compares by value. -/
def cellNeZero : Cell → Bool
  | .na => true
  | .txt _ => true
  | .num i => !(i == 0)

/-- The column mask of to_clean_csv: keep a column iff some cell is
non-missing, some cell differs from the empty string, and some cell
differs from zero or the dtype is object. -/
def keepCol (c : Column) : Bool :=
  c.cells.any cellNotNa && c.cells.any cellNeEmpty
    && (c.cells.any cellNeZero || c.dtype == Dtype.object)

/-- fillna with the empty string, per cell. -/
def fillCell : Cell → Cell
  | .na => .txt []
  | c => c

/-- Whether to_csv must quote a field (QUOTE_MINIMAL: delimiter, quote
character, or line break present). -/
def needsQuote (s : List Char) : Bool :=
  s.any (fun ch => ch == ',' || ch == '"' || ch == '\n' || ch == '\r')

/-- Double each quote character, as CSV quoting does. -/
def escQuote : List Char → List Char
  | [] => []
  | ch :: rest =>
    if ch == '"' then '"' :: '"' :: escQuote rest else ch :: escQuote rest

/-- Render one field, quoting when needed. -/
def renderField (s : List Char) : List Char :=
  if needsQuote s then '"' :: (escQuote s ++ ['"']) else s

/-- The decimal digit character for n modulo 10. -/
def digitChar10 (n : Nat) : Char := Char.ofNat (48 + n % 10)

/-- Fuelled decimal rendering of a natural number. -/
def natCharsGo : Nat → Nat → List Char
  | 0, _ => []
  | fuel + 1, n =>
    if n < 10 then [digitChar10 n]
    else natCharsGo fuel (n / 10) ++ [digitChar10 (n % 10)]

/-- Decimal rendering of a natural number. -/
def natChars (n : Nat) : List Char := natCharsGo (n + 1) n

/-- Decimal rendering of an integer. -/
def intChars : Int → List Char
  | .ofNat n => natChars n
  | .negSucc m => '-' :: natChars (m + 1)

/-- Render one cell for to_csv output: missing renders as the empty
field, strings and numbers render with minimal quoting. -/
def renderCell : Cell → List Char
  | .na => []
  | .txt s => renderField s
  | .num i => renderField (intChars i)

/-- Join fields with a separator character. -/
def joinChar (sep : Char) : List (List Char) → List Char
  | [] => []
  | [x] => x
  | x :: y :: rest => x ++ sep :: joinChar sep (y :: rest)

/-- One output line: comma-joined fields plus the line terminator. -/
def lineOf (fields : List (List Char)) : List Char :=
  joinChar ',' fields ++ ['\n']

/-- The rendered fields of row i. -/
def rowFields (cols : List Column) (i : Nat) : List (List Char) :=
  cols.map (fun c => renderCell (c.cells.getD i Cell.na))

/-- df.to_csv(index=False): the header line of column names followed by
one line per row, comma-delimited, with no index column. -/
def toCsvNoIndex (df : DFrame) : List Char :=
  lineOf (df.cols.map (fun c => renderField c.name))
    ++ ((List.range df.nrows).map (fun i => lineOf (rowFields df.cols i))).flatten

/-- fillna applied to a whole column. -/
def fillCol (c : Column) : Column := { c with cells := c.cells.map fillCell }

/-- The columns surviving the mask, with missing values filled. -/
def cleanCols (df : DFrame) : List Column :=
  (df.cols.filter keepCol).map fillCol

/-- to_clean_csv from investor_agent/utils/formatters.py (identical
copies in investor_agent/server.py and the per-tool modules): drop the
masked-out columns, fill missing values with the empty string, and
serialize without the index. -/
def to_clean_csv (df : DFrame) : List Char :=
  toCsvNoIndex { nrows := df.nrows, cols := cleanCols df }

/-- Cells that the claim's drop-set describes: missing, empty string,
or zero. -/
def cellInDropSet : Cell → Bool
  | .na => true
  | .txt s => s.isEmpty
  | .num i => i == 0

/-- Whether a cell is any form of zero (numeric or textual). -/
def cellIsZero : Cell → Bool
  | .na => false
  | .txt s => s == ['0']
  | .num i => i == 0

/-- A one-column frame mixing one missing value and one empty string:
entirely inside the claimed drop-set, with no zero cell at all (so the
textual-zero retention exception cannot apply). -/
def c3Frame : DFrame :=
  ⟨2, [⟨"a".toList, Dtype.object, [Cell.na, Cell.txt []]⟩]⟩

/-- C3 counterexample: every cell of the only column of c3Frame lies in
the claimed drop-set {missing, empty string, zero} and no cell of it is
any form of zero, yet to_clean_csv retains the column (its header
appears in the output) instead of dropping it: a missing cell compares
unequal to the empty string, so the mask keeps the mixed column. -/
theorem c3_counterexample :
    c3Frame.cols.all (fun c => c.cells.all cellInDropSet) = true
    ∧ c3Frame.cols.all (fun c => c.cells.all (fun x => !cellIsZero x)) = true
    ∧ to_clean_csv c3Frame = "a\n\n\n".toList
    ∧ to_clean_csv c3Frame ≠ "\n\n\n".toList := by
  decide

/-- Elementwise notna is false exactly on the missing cell. -/
theorem cellNotNa_eq_false (x : Cell) : cellNotNa x = false ↔ x = Cell.na := by
  cases x <;> simp [cellNotNa]

/-- Elementwise inequality with the empty string is false exactly on
the empty-string cell. -/
theorem cellNeEmpty_eq_false (x : Cell) :
    cellNeEmpty x = false ↔ x = Cell.txt [] := by
  cases x <;> simp [cellNeEmpty, List.isEmpty_iff]

/-- Elementwise inequality with zero is false exactly on the numeric
zero cell. -/
theorem cellNeZero_eq_false (x : Cell) :
    cellNeZero x = false ↔ x = Cell.num 0 := by
  cases x <;> simp [cellNeZero]

/-- A column has no non-missing cell iff it is uniformly missing. -/
theorem anyNotNa_eq_false (c : Column) :
    (c.cells.any cellNotNa = false) ↔ ∀ x ∈ c.cells, x = Cell.na := by
  simp only [List.any_eq_false, Bool.not_eq_true]
  exact forall₂_congr fun x _ => cellNotNa_eq_false x

/-- A column has no cell differing from the empty string iff it is
uniformly the empty string. -/
theorem anyNeEmpty_eq_false (c : Column) :
    (c.cells.any cellNeEmpty = false) ↔ ∀ x ∈ c.cells, x = Cell.txt [] := by
  simp only [List.any_eq_false, Bool.not_eq_true]
  exact forall₂_congr fun x _ => cellNeEmpty_eq_false x

/-- A column has no cell differing from zero iff it is uniformly the
numeric zero. -/
theorem anyNeZero_eq_false (c : Column) :
    (c.cells.any cellNeZero = false) ↔ ∀ x ∈ c.cells, x = Cell.num 0 := by
  simp only [List.any_eq_false, Bool.not_eq_true]
  exact forall₂_congr fun x _ => cellNeZero_eq_false x

/-- The mask drops a column exactly when it is uniformly missing,
uniformly the empty string, or numeric-dtyped and uniformly zero. -/
theorem keepCol_eq_false_iff (c : Column) :
    keepCol c = false ↔
      (∀ x ∈ c.cells, x = Cell.na)
      ∨ (∀ x ∈ c.cells, x = Cell.txt [])
      ∨ (c.dtype = Dtype.numeric ∧ ∀ x ∈ c.cells, x = Cell.num 0) := by
  have hd : ¬(c.dtype = Dtype.object) ↔ c.dtype = Dtype.numeric := by
    cases c.dtype <;> simp
  rw [Bool.eq_false_iff]
  simp only [keepCol, Ne, Bool.and_eq_true, Bool.or_eq_true, beq_iff_eq,
    not_and_or, not_or, Bool.not_eq_true]
  rw [anyNotNa_eq_false, anyNeEmpty_eq_false, anyNeZero_eq_false, hd]
  tauto

/-- A string free of the CSV special characters, so that its rendered
field is itself. -/
def plainStr (s : List Char) : Bool := !needsQuote s

/-- A cell whose textual content is free of CSV special characters. -/
def plainCell : Cell → Bool
  | .txt s => plainStr s
  | _ => true

/-- A column whose name and textual cells are free of CSV special
characters. -/
def plainCol (c : Column) : Bool :=
  plainStr c.name && c.cells.all plainCell

/-- Rendering a field that needs no quoting is the identity. -/
theorem renderField_plain (s : List Char) (h : needsQuote s = false) :
    renderField s = s := by
  simp [renderField, h]

/-- Value of the decimal digit character. -/
theorem digitChar10_toNat (n : Nat) : (digitChar10 n).toNat = 48 + n % 10 := by
  have hv : (48 + n % 10).isValidChar := Or.inl (by omega)
  exact toNat_ofNat_valid _ hv

/-- Every character of the fuelled decimal rendering is a digit. -/
theorem mem_natCharsGo (fuel : Nat) :
    ∀ n c, c ∈ natCharsGo fuel n → 48 ≤ c.toNat ∧ c.toNat ≤ 57 := by
  induction fuel with
  | zero => intro n c hc; simp [natCharsGo] at hc
  | succ fuel ih =>
    intro n c hc
    rw [natCharsGo] at hc
    by_cases h : n < 10
    · rw [if_pos h] at hc
      rcases List.mem_singleton.mp hc with rfl
      rw [digitChar10_toNat]
      omega
    · rw [if_neg h] at hc
      rcases List.mem_append.mp hc with h1 | h1
      · exact ih _ c h1
      · rcases List.mem_singleton.mp h1 with rfl
        rw [digitChar10_toNat]
        omega

/-- Decimal renderings of natural numbers never need quoting. -/
theorem needsQuote_natChars (n : Nat) : needsQuote (natChars n) = false := by
  rw [needsQuote, List.any_eq_false]
  intro c hc
  have hd := mem_natCharsGo (n + 1) n c hc
  have h1 : c ≠ ',' := by rintro rfl; exact absurd hd (by decide)
  have h2 : c ≠ '"' := by rintro rfl; exact absurd hd (by decide)
  have h3 : c ≠ '\n' := by rintro rfl; exact absurd hd (by decide)
  have h4 : c ≠ '\r' := by rintro rfl; exact absurd hd (by decide)
  simp [h1, h2, h3, h4]

/-- Decimal renderings of integers never need quoting. -/
theorem needsQuote_intChars (i : Int) : needsQuote (intChars i) = false := by
  cases i with
  | ofNat n => exact needsQuote_natChars n
  | negSucc m =>
    rw [intChars, needsQuote, List.any_eq_false]
    intro c hc
    rcases List.mem_cons.mp hc with rfl | h1
    · decide
    · exact (List.any_eq_false.mp (needsQuote_natChars (m + 1))) c h1

/-- The rendered value of a filled plain cell needs no quoting. -/
theorem needsQuote_renderCell_fill (x : Cell) (h : plainCell x = true) :
    needsQuote (renderCell (fillCell x)) = false := by
  cases x with
  | na => decide
  | txt s =>
    have hq : needsQuote s = false := by
      simpa [plainCell, plainStr] using h
    simp [fillCell, renderCell, renderField_plain s hq, hq]
  | num i =>
    simp [fillCell, renderCell, renderField_plain _ (needsQuote_intChars i),
      needsQuote_intChars i]

/-- Number of line terminators in a string. -/
def countNl (s : List Char) : Nat := s.countP (fun ch => ch == '\n')

/-- A field that needs no quoting contains no line terminator. -/
theorem countNl_of_plain (s : List Char) (h : needsQuote s = false) :
    countNl s = 0 := by
  rw [countNl, List.countP_eq_zero]
  intro c hc
  have := (List.any_eq_false.mp h) c hc
  simp only [Bool.or_eq_true, beq_iff_eq, not_or] at this
  simpa using this.1.2

/-- Joining line-terminator-free fields yields a line-terminator-free
string. -/
theorem countNl_joinChar (fs : List (List Char))
    (h : ∀ f ∈ fs, countNl f = 0) : countNl (joinChar ',' fs) = 0 := by
  induction fs with
  | nil => rfl
  | cons x rest ih =>
    cases rest with
    | nil => exact h x (List.mem_cons_self x [])
    | cons y t =>
      rw [show joinChar ',' (x :: y :: t) = x ++ ',' :: joinChar ',' (y :: t)
        from rfl]
      rw [countNl, List.countP_append, List.countP_cons]
      have h1 := h x (List.mem_cons_self x (y :: t))
      have h2 := ih (fun f hf => h f (List.mem_cons_of_mem x hf))
      rw [countNl] at h1 h2
      simp [h1, h2]

/-- A line of line-terminator-free fields has exactly one terminator. -/
theorem countNl_lineOf (fs : List (List Char))
    (h : ∀ f ∈ fs, countNl f = 0) : countNl (lineOf fs) = 1 := by
  rw [lineOf, countNl, List.countP_append]
  have h1 := countNl_joinChar fs h
  rw [countNl] at h1
  simp [h1]

/-- Concatenating lines each holding one terminator counts one per
line. -/
theorem countNl_flatten (ls : List (List Char))
    (h : ∀ l ∈ ls, countNl l = 1) : countNl ls.flatten = ls.length := by
  induction ls with
  | nil => rfl
  | cons x rest ih =>
    rw [List.flatten_cons, countNl, List.countP_append]
    have h1 := h x (List.mem_cons_self x rest)
    have h2 := ih (fun l hl => h l (List.mem_cons_of_mem x hl))
    rw [countNl] at h1 h2
    rw [h1, h2, List.length_cons]
    omega

/-- Reading a filled column at an in-range index gives the filled
original cell. -/
theorem getD_map_fill (l : List Cell) (i : Nat) (h : i < l.length) :
    (l.map fillCell).getD i Cell.na = fillCell (l.getD i Cell.na) := by
  simp [List.getD, List.getElem?_map, List.getElem?_eq_getElem h]

/-- C3 amended: to_clean_csv drops exactly those columns that are
uniformly missing, uniformly the empty string, or numeric-dtyped and
uniformly zero (a column mixing missing values with empty strings or
zeros is retained, as is an all-zero object-dtype column); the output
is the header line of the kept column names followed by one
comma-delimited line per record with no index column, missing values
rendering as empty fields; over special-character-free content the
output has exactly one line per record plus the header. -/
theorem c3_amended (df : DFrame) (c : Column) (hwf : df.wf)
    (hplain : ∀ col ∈ df.cols, keepCol col = true → plainCol col = true) :
    (keepCol c = false ↔
      (∀ x ∈ c.cells, x = Cell.na)
      ∨ (∀ x ∈ c.cells, x = Cell.txt [])
      ∨ (c.dtype = Dtype.numeric ∧ ∀ x ∈ c.cells, x = Cell.num 0))
    ∧ to_clean_csv df =
        lineOf ((cleanCols df).map (fun col => renderField col.name))
          ++ ((List.range df.nrows).map
              (fun i => lineOf (rowFields (cleanCols df) i))).flatten
    ∧ countNl (to_clean_csv df) = df.nrows + 1 := by
  refine ⟨keepCol_eq_false_iff c, rfl, ?_⟩
  have hmem : ∀ col ∈ cleanCols df,
      ∃ c0, c0 ∈ df.cols ∧ keepCol c0 = true ∧ col = fillCol c0 := by
    intro col hcol
    rcases List.mem_map.mp hcol with ⟨c0, hc0, rfl⟩
    rcases List.mem_filter.mp hc0 with ⟨hin, hkeep⟩
    exact ⟨c0, hin, hkeep, rfl⟩
  rw [to_clean_csv, toCsvNoIndex, countNl, List.countP_append]
  have hhead :
      countNl (lineOf ((cleanCols df).map (fun col => renderField col.name)))
        = 1 := by
    refine countNl_lineOf _ ?_
    intro f hf
    rcases List.mem_map.mp hf with ⟨col, hcol, rfl⟩
    rcases hmem col hcol with ⟨c0, hin, hkeep, rfl⟩
    have hsplit := hplain c0 hin hkeep
    rw [plainCol, Bool.and_eq_true] at hsplit
    have hq : needsQuote c0.name = false := by
      simpa [plainStr] using hsplit.1
    rw [show (fillCol c0).name = c0.name from rfl, renderField_plain _ hq]
    exact countNl_of_plain _ hq
  have hrows :
      countNl (((List.range df.nrows).map
        (fun i => lineOf (rowFields (cleanCols df) i))).flatten)
        = df.nrows := by
    rw [countNl_flatten]
    · rw [List.length_map, List.length_range]
    · intro l hl
      rcases List.mem_map.mp hl with ⟨i, hi, rfl⟩
      have hilt : i < df.nrows := List.mem_range.mp hi
      refine countNl_lineOf _ ?_
      intro f hf
      rcases List.mem_map.mp hf with ⟨col, hcol, rfl⟩
      rcases hmem col hcol with ⟨c0, hin, hkeep, rfl⟩
      have hlen : c0.cells.length = df.nrows := hwf c0 hin
      have hilt2 : i < c0.cells.length := by omega
      rw [show (fillCol c0).cells = c0.cells.map fillCell from rfl,
        getD_map_fill _ _ hilt2]
      have hx : c0.cells.getD i Cell.na ∈ c0.cells := by
        rw [List.getD_eq_getElem?_getD, List.getElem?_eq_getElem hilt2]
        exact List.getElem_mem hilt2
      have hpc : plainCell (c0.cells.getD i Cell.na) = true := by
        have hsplit := hplain c0 hin hkeep
        rw [plainCol, Bool.and_eq_true] at hsplit
        exact (List.all_eq_true.mp hsplit.2) _ hx
      exact countNl_of_plain _ (needsQuote_renderCell_fill _ hpc)
  rw [countNl] at hhead hrows
  rw [hhead, hrows]
  omega

/-- A concrete frame with one plain text column and one all-zero
numeric column. -/
def c3WitFrame : DFrame :=
  ⟨1, [⟨"a".toList, Dtype.object, [Cell.txt ['x']]⟩,
       ⟨"b".toList, Dtype.numeric, [Cell.num 0]⟩]⟩

/-- Witness for c3_amended at a concrete frame. -/
theorem c3_amended_witness :
    countNl (to_clean_csv c3WitFrame) = c3WitFrame.nrows + 1 :=
  (c3_amended c3WitFrame ⟨[], Dtype.object, []⟩
    (by unfold DFrame.wf; decide) (by decide)).2.2

/-- Split on a separator character, accumulating the current field in
reverse; the final field is emitted at end of input. -/
def splitGo (sep : Char) : List Char → List Char → List (List Char)
  | cur, [] => [cur.reverse]
  | cur, c :: rest =>
    if c == sep then cur.reverse :: splitGo sep [] rest
    else splitGo sep (c :: cur) rest

/-- Split a string on a separator character. -/
def splitOnChar (sep : Char) (s : List Char) : List (List Char) :=
  splitGo sep [] s

/-- Split into lines, treating the line feed as a terminator: a final
terminator closes the last line instead of opening an empty one. -/
def linesGo : List Char → List Char → List (List Char)
  | cur, [] => if cur.isEmpty then [] else [cur.reverse]
  | cur, c :: rest =>
    if c == '\n' then cur.reverse :: linesGo [] rest
    else linesGo (c :: cur) rest

/-- The lines of a text. -/
def linesOf (s : List Char) : List (List Char) := linesGo [] s

/-- Read one CSV field back into a cell: an empty field reads as a
missing value (as read_csv does), any other field as its text. -/
def parseCell (f : List Char) : Cell :=
  if f.isEmpty then Cell.na else Cell.txt f

/-- Build columns from a header and a row grid by repeatedly peeling
the first field of every row; parsed columns carry the object dtype. -/
def colsFromGrid : List (List Char) → List (List (List Char)) → List Column
  | [], _ => []
  | nm :: nms, grid =>
    ⟨nm, Dtype.object, grid.map (fun r => parseCell (r.headD []))⟩ ::
      colsFromGrid nms (grid.map (fun r => r.tail))

/-- The parse step named by the claim: read CSV text back into a
table. It models reading the output of to_clean_csv with
pandas.read_csv restricted to the inference-free case: fields are kept
as text (object dtype), an empty field becomes a missing value, and no
quoting or blank-line handling is applied (the idempotence statement
below assumes special-character-free fields). -/
def parseCsv (text : List Char) : DFrame :=
  match linesOf text with
  | [] => ⟨0, []⟩
  | h :: rs =>
    ⟨rs.length, colsFromGrid (splitOnChar ',' h) (rs.map (splitOnChar ','))⟩

/-- Splitting a text that starts with a separator-free field followed
by a separator emits that field and continues. -/
theorem splitGo_append (sep : Char) (a : List Char) :
    ∀ cur b, (sep ∈ a → False) →
      splitGo sep cur (a ++ sep :: b) = (cur.reverse ++ a) :: splitGo sep [] b := by
  induction a with
  | nil =>
    intro cur b _
    simp [splitGo]
  | cons c rest ih =>
    intro cur b hns
    have hcs : (c == sep) = false := by
      simp only [beq_eq_false_iff_ne, Ne]
      intro h
      exact hns (h ▸ List.mem_cons_self c rest)
    rw [List.cons_append, splitGo, if_neg (by simp [hcs])]
    rw [ih (c :: cur) b (fun h => hns (List.mem_cons_of_mem c h))]
    simp

/-- Splitting a separator-free text yields that single field. -/
theorem splitGo_no_sep (sep : Char) (a : List Char) :
    ∀ cur, (sep ∈ a → False) → splitGo sep cur a = [cur.reverse ++ a] := by
  induction a with
  | nil => intro cur _; simp [splitGo]
  | cons c rest ih =>
    intro cur hns
    have hcs : (c == sep) = false := by
      simp only [beq_eq_false_iff_ne, Ne]
      intro h
      exact hns (h ▸ List.mem_cons_self c rest)
    rw [splitGo, if_neg (by simp [hcs])]
    rw [ih (c :: cur) (fun h => hns (List.mem_cons_of_mem c h))]
    simp

/-- Splitting the separator-join of separator-free fields restores the
fields. -/
theorem splitOnChar_joinChar (sep : Char) (fs : List (List Char))
    (hne : fs ≠ []) (h : ∀ f ∈ fs, sep ∈ f → False) :
    splitOnChar sep (joinChar sep fs) = fs := by
  induction fs with
  | nil => exact absurd rfl hne
  | cons x rest ih =>
    cases rest with
    | nil =>
      rw [show joinChar sep [x] = x from rfl, splitOnChar,
        splitGo_no_sep sep x [] (h x (List.mem_cons_self x []))]
      rfl
    | cons y t =>
      rw [show joinChar sep (x :: y :: t) = x ++ sep :: joinChar sep (y :: t)
        from rfl, splitOnChar,
        splitGo_append sep x [] _ (h x (List.mem_cons_self x (y :: t)))]
      rw [show ([] : List Char).reverse ++ x = x from by simp]
      have := ih (by simp) (fun f hf => h f (List.mem_cons_of_mem x hf))
      rw [splitOnChar] at this
      rw [this]

/-- Reading a terminator-free line followed by a terminator emits that
line and continues. -/
theorem linesGo_append (l : List Char) :
    ∀ cur r, ('\n' ∈ l → False) →
      linesGo cur (l ++ '\n' :: r) = (cur.reverse ++ l) :: linesGo [] r := by
  induction l with
  | nil =>
    intro cur r _
    simp [linesGo]
  | cons c rest ih =>
    intro cur r hnl
    have hcs : (c == '\n') = false := by
      simp only [beq_eq_false_iff_ne, Ne]
      intro h
      exact hnl (h ▸ List.mem_cons_self c rest)
    rw [List.cons_append, linesGo, if_neg (by simp [hcs])]
    rw [ih (c :: cur) r (fun h => hnl (List.mem_cons_of_mem c h))]
    simp

/-- The lines of a concatenation of terminator-closed lines are
exactly those lines. -/
theorem linesOf_flatten (ls : List (List Char))
    (h : ∀ l ∈ ls, '\n' ∈ l → False) :
    linesOf ((ls.map (fun l => l ++ ['\n'])).flatten) = ls := by
  induction ls with
  | nil => rfl
  | cons x rest ih =>
    rw [List.map_cons, List.flatten_cons]
    rw [show (x ++ ['\n']) ++ ((rest.map (fun l => l ++ ['\n'])).flatten)
      = x ++ '\n' :: ((rest.map (fun l => l ++ ['\n'])).flatten) from by simp]
    rw [linesOf, linesGo_append x [] _ (h x (List.mem_cons_self x rest))]
    rw [show ([] : List Char).reverse ++ x = x from by simp]
    have := ih (fun l hl => h l (List.mem_cons_of_mem x hl))
    rw [linesOf] at this
    rw [this]

/-- Peeling columns out of a grid whose rows are all mapped from the
same column list reconstructs one parsed column per original column. -/
theorem colsFromGrid_map (nameF : Column → List Char)
    (g : Nat → Column → List Char) :
    ∀ (cs : List Column) (is : List Nat),
      colsFromGrid (cs.map nameF) (is.map (fun i => cs.map (g i))) =
        cs.map (fun c =>
          ⟨nameF c, Dtype.object, is.map (fun i => parseCell (g i c))⟩) := by
  intro cs
  induction cs with
  | nil => intro is; rfl
  | cons c rest ih =>
    intro is
    rw [List.map_cons, colsFromGrid]
    rw [List.map_cons]
    refine congrArg₂ _ ?_ ?_
    · refine congrArg _ ?_
      rw [List.map_map]
      refine List.map_congr_left ?_
      intro i _
      simp
    · rw [List.map_map]
      rw [show ((fun r => List.tail r) ∘ fun i => (c :: rest).map (g i))
        = fun i => rest.map (g i) from by funext i; simp]
      exact ih is

/-- The decimal rendering of a natural number is never empty. -/
theorem natChars_ne_nil (n : Nat) : natChars n ≠ [] := by
  rw [natChars, natCharsGo]
  by_cases h : n < 10
  · simp [h]
  · simp [h]

/-- The decimal rendering of an integer is never empty. -/
theorem intChars_ne_nil (i : Int) : intChars i ≠ [] := by
  cases i with
  | ofNat n => exact natChars_ne_nil n
  | negSucc m => simp [intChars]

/-- Reading an element of a range-mapped list at an in-range index. -/
theorem getD_map_range (f : Nat → Cell) (n i : Nat) (h : i < n) :
    ((List.range n).map f).getD i Cell.na = f i := by
  simp [List.getD, List.getElem?_map, List.getElem?_range, h]

/-- Round trip of one rendered field through parse, fill and
re-render: the identity on quote-free fields. -/
theorem roundtripField (r : List Char) (h : needsQuote r = false) :
    renderCell (fillCell (parseCell r)) = r := by
  rcases r with _ | ⟨c, rest⟩
  · rfl
  · rw [parseCell, if_neg (by simp)]
    rw [show fillCell (Cell.txt (c :: rest)) = Cell.txt (c :: rest) from rfl]
    rw [renderCell, renderField_plain _ h]

/-- A quote-free string contains no line terminator. -/
theorem nl_not_mem_of_plain (s : List Char) (h : needsQuote s = false) :
    '\n' ∈ s → False := by
  intro hm
  have := (List.any_eq_false.mp h) '\n' hm
  simp at this

/-- A quote-free string contains no separator. -/
theorem comma_not_mem_of_plain (s : List Char) (h : needsQuote s = false) :
    ',' ∈ s → False := by
  intro hm
  have := (List.any_eq_false.mp h) ',' hm
  simp at this

/-- A cell whose rendered field is non-empty: a non-empty string or
any number. -/
def cellNonBlank : Cell → Bool
  | .na => false
  | .txt s => !s.isEmpty
  | .num _ => true

/-- A non-blank plain cell renders, after filling, to a non-empty
field. -/
theorem renderCell_fill_ne_nil (x : Cell) (hnb : cellNonBlank x = true)
    (hp : plainCell x = true) : renderCell (fillCell x) ≠ [] := by
  cases x with
  | na => simp [cellNonBlank] at hnb
  | txt s =>
    have hq : needsQuote s = false := by simpa [plainCell, plainStr] using hp
    rw [show fillCell (Cell.txt s) = Cell.txt s from rfl, renderCell,
      renderField_plain _ hq]
    simpa [cellNonBlank, List.isEmpty_iff] using hnb
  | num i =>
    rw [show fillCell (Cell.num i) = Cell.num i from rfl, renderCell,
      renderField_plain _ (needsQuote_intChars i)]
    exact intChars_ne_nil i

/-- Every kept, filled column of a plain frame has a quote-free name
and quote-free rendered fields at every index. -/
theorem cleanCols_field_plain (df : DFrame)
    (hplain : ∀ col ∈ df.cols, keepCol col = true → plainCol col = true) :
    ∀ c ∈ cleanCols df, needsQuote c.name = false
      ∧ ∀ i, needsQuote (renderCell (c.cells.getD i Cell.na)) = false := by
  intro c hc
  rcases List.mem_map.mp hc with ⟨c0, hc0, rfl⟩
  rcases List.mem_filter.mp hc0 with ⟨hin, hkeep⟩
  have hsplit := hplain c0 hin hkeep
  rw [plainCol, Bool.and_eq_true] at hsplit
  refine ⟨by simpa [plainStr] using hsplit.1, ?_⟩
  intro i
  rw [show (fillCol c0).cells = c0.cells.map fillCell from rfl]
  by_cases hi : i < c0.cells.length
  · rw [getD_map_fill _ _ hi]
    refine needsQuote_renderCell_fill _ ?_
    have hx : c0.cells.getD i Cell.na ∈ c0.cells := by
      rw [List.getD_eq_getElem?_getD, List.getElem?_eq_getElem hi]
      exact List.getElem_mem hi
    exact (List.all_eq_true.mp hsplit.2) _ hx
  · have hnone : (c0.cells.map fillCell)[i]? = none := by
      rw [List.getElem?_eq_none]
      rw [List.length_map]
      omega
    rw [List.getD_eq_getElem?_getD, hnone]
    rfl

/-- A terminator-count of zero excludes the terminator from the
string. -/
theorem nl_not_mem_of_countNl (s : List Char) (h : countNl s = 0) :
    '\n' ∈ s → False := by
  intro hm
  rw [countNl] at h
  have := List.countP_eq_zero.mp h '\n' hm
  simp at this

/-- Parsing the output of to_clean_csv over plain content reconstructs
one object-dtyped text column per kept column, holding the rendered
fields with empty fields read back as missing. -/
theorem parse_to_clean (df : DFrame)
    (hkept : cleanCols df ≠ [])
    (hplain : ∀ col ∈ df.cols, keepCol col = true → plainCol col = true) :
    parseCsv (to_clean_csv df) =
      ⟨df.nrows, (cleanCols df).map (fun c =>
        ⟨renderField c.name, Dtype.object,
         (List.range df.nrows).map (fun i =>
           parseCell (renderCell (c.cells.getD i Cell.na)))⟩)⟩ := by
  have hfp := cleanCols_field_plain df hplain
  have hhf : ∀ f ∈ (cleanCols df).map (fun c => renderField c.name),
      needsQuote f = false := by
    intro f hf
    rcases List.mem_map.mp hf with ⟨c, hc, rfl⟩
    have := (hfp c hc).1
    rw [renderField_plain _ this]
    exact this
  have hrf : ∀ i, ∀ f ∈ rowFields (cleanCols df) i, needsQuote f = false := by
    intro i f hf
    rcases List.mem_map.mp hf with ⟨c, hc, rfl⟩
    exact (hfp c hc).2 i
  have htext : to_clean_csv df =
      (((joinChar ',' ((cleanCols df).map (fun c => renderField c.name)))
        :: (List.range df.nrows).map
            (fun i => joinChar ',' (rowFields (cleanCols df) i))).map
        (fun l => l ++ ['\n'])).flatten := by
    rw [to_clean_csv, toCsvNoIndex]
    simp only [List.map_cons, List.flatten_cons, lineOf, List.map_map]
    rfl
  have hlines : linesOf (to_clean_csv df) =
      (joinChar ',' ((cleanCols df).map (fun c => renderField c.name)))
        :: (List.range df.nrows).map
            (fun i => joinChar ',' (rowFields (cleanCols df) i)) := by
    rw [htext]
    refine linesOf_flatten _ ?_
    intro l hl
    rcases List.mem_cons.mp hl with rfl | hl2
    · exact nl_not_mem_of_countNl _
        (countNl_joinChar _ (fun f hf => countNl_of_plain f (hhf f hf)))
    · rcases List.mem_map.mp hl2 with ⟨i, _, rfl⟩
      exact nl_not_mem_of_countNl _
        (countNl_joinChar _ (fun f hf => countNl_of_plain f (hrf i f hf)))
  have hstep : parseCsv (to_clean_csv df) =
      ⟨((List.range df.nrows).map
          (fun i => joinChar ',' (rowFields (cleanCols df) i))).length,
       colsFromGrid
         (splitOnChar ','
           (joinChar ',' ((cleanCols df).map (fun c => renderField c.name))))
         (((List.range df.nrows).map
            (fun i => joinChar ',' (rowFields (cleanCols df) i))).map
           (splitOnChar ','))⟩ := by
    unfold parseCsv
    rw [hlines]
  rw [hstep]
  have hccne2 : (cleanCols df).map (fun c => renderField c.name) ≠ [] := by
    intro h
    exact hkept (by simpa using h)
  refine congrArg₂ _ ?_ ?_
  · simp
  · rw [splitOnChar_joinChar ',' _ hccne2
      (fun f hf => comma_not_mem_of_plain f (hhf f hf))]
    rw [List.map_map]
    have hsplitrow : ∀ i,
        splitOnChar ',' (joinChar ',' (rowFields (cleanCols df) i))
          = rowFields (cleanCols df) i := by
      intro i
      refine splitOnChar_joinChar ',' _ ?_
        (fun f hf => comma_not_mem_of_plain f (hrf i f hf))
      intro h
      exact hkept (by simpa [rowFields] using h)
    rw [show (splitOnChar ',' ∘ fun i =>
          joinChar ',' (rowFields (cleanCols df) i))
        = fun i => rowFields (cleanCols df) i from funext fun i => hsplitrow i]
    rw [show (fun i => rowFields (cleanCols df) i)
        = fun i => (cleanCols df).map
            (fun c => renderCell (c.cells.getD i Cell.na)) from rfl]
    exact colsFromGrid_map (fun c => renderField c.name)
      (fun i c => renderCell (c.cells.getD i Cell.na)) (cleanCols df)
      (List.range df.nrows)

/-- C4 amended: to_clean_csv is not idempotent in general, but it is
on tables whose kept columns each hold at least one value rendering to
a non-empty field: for every well-formed frame with at least one kept
column, all kept content free of CSV special characters, and every
kept column containing a non-empty string or a number, parsing the
produced CSV back (fields as text, empty fields as missing) and
normalizing again reproduces the same text. -/
theorem c4_amended (df : DFrame) (hwf : df.wf)
    (hkept : cleanCols df ≠ [])
    (hplain : ∀ col ∈ df.cols, keepCol col = true → plainCol col = true)
    (hwit : ∀ col ∈ df.cols, keepCol col = true →
      ∃ x ∈ col.cells, cellNonBlank x = true) :
    to_clean_csv (parseCsv (to_clean_csv df)) = to_clean_csv df := by
  have hfp := cleanCols_field_plain df hplain
  rw [parse_to_clean df hkept hplain]
  set F : Column → Column := fun c =>
    ⟨renderField c.name, Dtype.object,
     (List.range df.nrows).map (fun i =>
       parseCell (renderCell (c.cells.getD i Cell.na)))⟩ with hF
  have hkeepF : ∀ c ∈ cleanCols df, keepCol (F c) = true := by
    intro c hc
    rcases List.mem_map.mp hc with ⟨c0, hc00, rfl⟩
    rcases List.mem_filter.mp hc00 with ⟨hin, hkeep⟩
    rcases hwit c0 hin hkeep with ⟨x, hx, hnb⟩
    rcases List.mem_iff_getElem.mp hx with ⟨ix, hixlt, hxeq⟩
    have hlen : c0.cells.length = df.nrows := hwf c0 hin
    have hixn : ix < df.nrows := by omega
    have hsplit := hplain c0 hin hkeep
    rw [plainCol, Bool.and_eq_true] at hsplit
    have hpx : plainCell x = true := (List.all_eq_true.mp hsplit.2) _ hx
    have hgd : (fillCol c0).cells.getD ix Cell.na = fillCell x := by
      rw [show (fillCol c0).cells = c0.cells.map fillCell from rfl,
        getD_map_fill _ _ hixlt, List.getD_eq_getElem?_getD,
        List.getElem?_eq_getElem hixlt, hxeq]
      rfl
    have hrne : renderCell ((fillCol c0).cells.getD ix Cell.na) ≠ [] := by
      rw [hgd]
      exact renderCell_fill_ne_nil x hnb hpx
    have hcellmem :
        parseCell (renderCell ((fillCol c0).cells.getD ix Cell.na))
          ∈ (F (fillCol c0)).cells :=
      List.mem_map.mpr ⟨ix, List.mem_range.mpr hixn, rfl⟩
    rw [keepCol, Bool.and_eq_true, Bool.and_eq_true]
    refine ⟨⟨?_, ?_⟩, ?_⟩
    · refine List.any_eq_true.mpr ⟨_, hcellmem, ?_⟩
      rw [parseCell, if_neg (by simpa [List.isEmpty_iff] using hrne)]
      rfl
    · refine List.any_eq_true.mpr ⟨_, hcellmem, ?_⟩
      rw [parseCell, if_neg (by simpa [List.isEmpty_iff] using hrne)]
      simpa [cellNeEmpty, List.isEmpty_iff] using hrne
    · rw [Bool.or_eq_true]
      exact Or.inr rfl
  have hfilter :
      ((cleanCols df).map F).filter keepCol = (cleanCols df).map F := by
    refine List.filter_eq_self.mpr ?_
    intro a ha
    rcases List.mem_map.mp ha with ⟨c, hc, rfl⟩
    exact hkeepF c hc
  have hclean : cleanCols ⟨df.nrows, (cleanCols df).map F⟩
      = (cleanCols df).map (fun c => fillCol (F c)) := by
    rw [show cleanCols ⟨df.nrows, (cleanCols df).map F⟩
        = (((cleanCols df).map F).filter keepCol).map fillCol from rfl, hfilter,
      List.map_map]
    rfl
  have hgoal : to_clean_csv ⟨df.nrows, (cleanCols df).map F⟩
      = toCsvNoIndex ⟨df.nrows, (cleanCols df).map (fun c => fillCol (F c))⟩ := by
    rw [show to_clean_csv ⟨df.nrows, (cleanCols df).map F⟩
        = toCsvNoIndex ⟨df.nrows, cleanCols ⟨df.nrows, (cleanCols df).map F⟩⟩
        from rfl, hclean]
  rw [hgoal]
  rw [show to_clean_csv df = toCsvNoIndex ⟨df.nrows, cleanCols df⟩ from rfl]
  rw [show toCsvNoIndex ⟨df.nrows, (cleanCols df).map (fun c => fillCol (F c))⟩
      = lineOf (((cleanCols df).map (fun c => fillCol (F c))).map
          (fun c => renderField c.name))
        ++ ((List.range df.nrows).map (fun i =>
            lineOf (rowFields ((cleanCols df).map (fun c => fillCol (F c))) i))).flatten
      from rfl]
  rw [show toCsvNoIndex ⟨df.nrows, cleanCols df⟩
      = lineOf ((cleanCols df).map (fun c => renderField c.name))
        ++ ((List.range df.nrows).map (fun i =>
            lineOf (rowFields (cleanCols df) i))).flatten
      from rfl]
  refine congrArg₂ _ ?_ ?_
  · refine congrArg lineOf ?_
    rw [List.map_map]
    refine List.map_congr_left ?_
    intro c hc
    have hq := (hfp c hc).1
    simp only [Function.comp]
    rw [show (fillCol (F c)).name = renderField c.name from rfl,
      renderField_plain _ hq, renderField_plain _ hq]
  · refine congrArg List.flatten ?_
    refine List.map_congr_left ?_
    intro i hi
    have hin : i < df.nrows := List.mem_range.mp hi
    refine congrArg lineOf ?_
    rw [show rowFields ((cleanCols df).map (fun c => fillCol (F c))) i
        = ((cleanCols df).map (fun c => fillCol (F c))).map
            (fun c => renderCell (c.cells.getD i Cell.na)) from rfl]
    rw [List.map_map]
    refine List.map_congr_left ?_
    intro c hc
    simp only [Function.comp]
    have hlen2 : ((List.range df.nrows).map (fun j =>
        parseCell (renderCell (c.cells.getD j Cell.na)))).length = df.nrows := by
      simp
    rw [show (fillCol (F c)).cells = (F c).cells.map fillCell from rfl]
    rw [show (F c).cells = (List.range df.nrows).map (fun j =>
        parseCell (renderCell (c.cells.getD j Cell.na))) from rfl]
    rw [getD_map_fill _ _ (by rw [hlen2]; exact hin)]
    rw [getD_map_range _ _ _ hin]
    exact roundtripField _ ((hfp c hc).2 i)

/-- A frame whose only column holds one missing value and one empty
string: its cleaned form survives the mask but renders as all-empty
fields. -/
def c4Frame : DFrame :=
  ⟨2, [⟨"a".toList, Dtype.object, [Cell.na, Cell.txt []]⟩]⟩

/-- C4 counterexample: normalizing c4Frame keeps its column, but every
field of that column renders empty, so parsing the output reads the
column back as all-missing and the second normalization drops it: the
round trip does not reproduce the first output. -/
theorem c4_counterexample :
    to_clean_csv c4Frame = "a\n\n\n".toList
    ∧ to_clean_csv (parseCsv (to_clean_csv c4Frame)) = "\n\n\n".toList
    ∧ to_clean_csv (parseCsv (to_clean_csv c4Frame)) ≠ to_clean_csv c4Frame := by
  decide

/-- A frame satisfying the amendment's proviso. -/
def c4WitFrame : DFrame :=
  ⟨2, [⟨"a".toList, Dtype.object, [Cell.txt ['x'], Cell.na]⟩,
       ⟨"n".toList, Dtype.numeric, [Cell.num 3, Cell.num 0]⟩]⟩

/-- Witness for c4_amended at a concrete frame. -/
theorem c4_amended_witness :
    to_clean_csv (parseCsv (to_clean_csv c4WitFrame)) = to_clean_csv c4WitFrame :=
  c4_amended c4WitFrame (by unfold DFrame.wf; decide) (by decide) (by decide)
    (by decide)

/-- Classification attached to a failure envelope. -/
inductive ErrClass where
  | validationError : ErrClass
  | toolExecutionError : ErrClass
deriving Repr, DecidableEq

/-- Modelled from the spec: the Tool Response Envelope of the tool
contract (interfaces/tool.py is not under src); a success carries the
payload, a failure carries a classification and a human-readable
message. -/
inductive Envelope (π : Type) where
  | success : π → Envelope π
  | failure : ErrClass → List Char → Envelope π
deriving Repr, DecidableEq

/-- Modelled from the spec: the Tool contract as dispatch consumes it
(interfaces/tool.py is not under src): a unique name, a validator of
raw arguments returning the violation message when the input fails the
declared schema, and an execute operation that returns a payload or
raises (modelled as Except). -/
structure MTool (α π : Type) where
  name : List Char
  validate : α → Option (List Char)
  execute : α → Except (List Char) π

/-- Registry-level contract violations, the only errors dispatch itself
raises. -/
inductive RegErr where
  | unknownTool : List Char → RegErr
  | duplicateTool : List Char → RegErr
deriving Repr, DecidableEq

/-- Modelled from the spec: the tool registry (services/tool_service.py
is not under src): an ordered mapping from tool name to tool. -/
structure Registry (α π : Type) where
  tools : List (MTool α π)

/-- Modelled from the spec: registration adds the tool, failing with
DuplicateTool when the name is already present. -/
def register {α π : Type} (r : Registry α π) (t : MTool α π) :
    Except RegErr (Registry α π) :=
  if r.tools.any (fun u => u.name == t.name) then
    .error (.duplicateTool t.name)
  else .ok ⟨r.tools ++ [t]⟩

/-- Look a tool up by name, in registration order. -/
def findTool {α π : Type} (r : Registry α π) (name : List Char) :
    Option (MTool α π) :=
  r.tools.find? (fun t => t.name == name)

/-- What one dispatch call does: return an envelope to the transport,
or raise a registry-level error. -/
inductive DispatchOutcome (π : Type) where
  | envelope : Envelope π → DispatchOutcome π
  | raised : RegErr → DispatchOutcome π
deriving Repr, DecidableEq

/-- Modelled from the spec: dispatch looks the tool up (UnknownTool
when absent), validates the raw arguments (a violation becomes a
ValidationError failure envelope), invokes execute, and wraps the
result: success in a success envelope, any exception from execute in a
ToolExecutionError failure envelope carrying its message. The registry
is immutable during request processing, so a call's outcome is a pure
function of the registry, the name and the arguments. -/
def dispatch {α π : Type} (r : Registry α π) (name : List Char) (args : α) :
    DispatchOutcome π :=
  match findTool r name with
  | none => .raised (.unknownTool name)
  | some t =>
    match t.validate args with
    | some msg => .envelope (.failure .validationError msg)
    | none =>
      match t.execute args with
      | .ok p => .envelope (.success p)
      | .error msg => .envelope (.failure .toolExecutionError msg)

/-- C6: whenever a registered tool's execute raises, dispatch catches
it and returns a ToolExecutionError failure envelope with its message;
a registered tool always yields an envelope (dispatch never raises for
tool-level failures); an unregistered name raises UnknownTool; and the
only other registry-level raise, DuplicateTool, happens exactly at
registration of an existing name. Dispatch leaves the registry
untouched, so one invocation's failure cannot affect another tool's
availability. -/
theorem c6_dispatch {α π : Type} (r : Registry α π) (name : List Char)
    (args : α) :
    (∀ t msg, findTool r name = some t → t.validate args = none →
      t.execute args = .error msg →
        dispatch r name args =
          .envelope (.failure .toolExecutionError msg))
    ∧ (∀ t, findTool r name = some t →
        ∃ env, dispatch r name args = .envelope env)
    ∧ (findTool r name = none →
        dispatch r name args = .raised (.unknownTool name))
    ∧ (∀ t : MTool α π,
        register r t = .error (.duplicateTool t.name) ↔
          r.tools.any (fun u => u.name == t.name) = true) := by
  refine ⟨?_, ?_, ?_, ?_⟩
  · intro t msg hf hv he
    simp [dispatch, hf, hv, he]
  · intro t hf
    rw [dispatch, hf]
    rcases hv : t.validate args with _ | msg
    · rcases he : t.execute args with msg2 | p
      · exact ⟨.failure .toolExecutionError msg2, by simp [hv, he]⟩
      · exact ⟨.success p, by simp [hv, he]⟩
    · exact ⟨.failure .validationError msg, by simp [hv]⟩
  · intro hf
    simp [dispatch, hf]
  · intro t
    constructor
    · intro h
      by_contra hc
      rw [register, if_neg (by simpa using hc)] at h
      exact absurd h (by simp)
    · intro h
      rw [register, if_pos h]

/-- A concrete tool whose execute always raises. -/
def c6Tool : MTool Unit Nat :=
  ⟨"get_options".toList, fun _ => none, fun _ => .error "boom".toList⟩

/-- A registry holding only c6Tool. -/
def c6Reg : Registry Unit Nat := ⟨[c6Tool]⟩

/-- Witness for c6_dispatch: the raising tool's failure comes back as
a ToolExecutionError envelope. -/
theorem c6_dispatch_witness :
    dispatch c6Reg "get_options".toList () =
      .envelope (.failure .toolExecutionError "boom".toList) :=
  (c6_dispatch c6Reg "get_options".toList ()).1 c6Tool "boom".toList rfl rfl rfl

/-- Option type filter of the options tool input: calls or puts. -/
inductive OptType where
  | C : OptType
  | P : OptType
deriving Repr, DecidableEq

/-- One options contract with the columns the execute path reads:
strike, openInterest and volume; strikes and liquidity figures are
modelled as integers. -/
structure OptRow where
  strike : Int
  openInterest : Int
  volume : Int
deriving Repr, DecidableEq

/-- One expiration's chain as the provider returns it. -/
structure OptionChain where
  calls : List OptRow
  puts : List OptRow

/-- The options provider as execute observes it: the expirations
property and the chain of each expiry. -/
structure OptionsEnv where
  expirations : List (List Char)
  chainAt : List Char → OptionChain

/-- OptionsInput from the options tool models: ticker, result limit
(schema-constrained to at least 1), optional expiry window, optional
strike bounds and optional type filter. -/
structure OptionsInput where
  ticker_symbol : List Char
  num_options : Nat
  start_date : Option (List Char)
  end_date : Option (List Char)
  strike_lower : Option Int
  strike_upper : Option Int
  option_type : Option OptType

/-- get_options_chain from the options tool module: the calls, the
puts, or their concatenation. -/
def get_options_chain (env : OptionsEnv) (expiry : List Char)
    (otype : Option OptType) : List OptRow :=
  match otype with
  | some .C => (env.chainAt expiry).calls
  | some .P => (env.chainAt expiry).puts
  | none => (env.chainAt expiry).calls ++ (env.chainAt expiry).puts

/-- Python truthiness of an optional string: present and non-empty. -/
def truthyOpt : Option (List Char) → Bool
  | none => false
  | some s => !s.isEmpty

/-- Python string comparison, lexicographic on code points. -/
def strLeL : List Char → List Char → Bool
  | [], _ => true
  | _ :: _, [] => false
  | a :: as, b :: bs =>
    if a == b then strLeL as bs else decide (a.toNat < b.toNat)

/-- The expiration date-window filter of execute: each bound applies
only when truthy, compared as strings. -/
def expInRange (input : OptionsInput) (exp : List Char) : Bool :=
  (!truthyOpt input.start_date || strLeL (input.start_date.getD []) exp)
    && (!truthyOpt input.end_date || strLeL exp (input.end_date.getD []))

/-- Descending lexicographic comparison of the two sort keys. -/
def pairGe (a b : Int × Int) : Bool :=
  decide (b.1 < a.1) || (a.1 == b.1 && decide (b.2 ≤ a.2))

/-- Insertion into a descending-sorted list. -/
def insertByDesc {α : Type} (key : α → Int × Int) (x : α) :
    List α → List α
  | [] => [x]
  | y :: rest =>
    if pairGe (key x) (key y) then x :: y :: rest
    else y :: insertByDesc key x rest

/-- Sort in descending key order, modelling sort_values on
openInterest and volume with ascending false (pandas' default sort is
not stable; any consistent order satisfies the properties at issue). -/
def sortByDesc {α : Type} (key : α → Int × Int) : List α → List α
  | [] => []
  | x :: rest => insertByDesc key x (sortByDesc key rest)

/-- The concatenated chain as a labeled table: the modelled contract
columns plus the assigned expiryDate column. -/
def optionsFrame (rows : List (OptRow × List Char)) : DFrame :=
  ⟨rows.length,
   [⟨"strike".toList, Dtype.numeric, rows.map (fun r => Cell.num r.1.strike)⟩,
    ⟨"openInterest".toList, Dtype.numeric,
      rows.map (fun r => Cell.num r.1.openInterest)⟩,
    ⟨"volume".toList, Dtype.numeric, rows.map (fun r => Cell.num r.1.volume)⟩,
    ⟨"expiryDate".toList, Dtype.object, rows.map (fun r => Cell.txt r.2)⟩]⟩

/-- Output shape of the options tool. -/
structure OptionsOutput where
  options_data : List Char
deriving Repr, DecidableEq

/-- The try-block body of OptionsTool.execute: validate the date
range, read the expirations (error when none), filter them by the
window (error when none remain), fetch each chain tagged with its
expiry (error when the chain list is empty), concatenate, apply the
optional strike bounds, sort descending, truncate, and serialize. -/
def optionsBody (env : OptionsEnv) (input : OptionsInput)
    (ticker : List Char) : Except VErr OptionsOutput :=
  match validate_date_range input.start_date input.end_date with
  | .error e => .error e
  | .ok _ =>
    if env.expirations.isEmpty then
      .error (.invalidArgument ("No options available for ".toList ++ ticker))
    else
      let valid := env.expirations.filter (expInRange input)
      if valid.isEmpty then
        .error (.invalidArgument ("No options found for ".toList ++ ticker
          ++ " within specified date range".toList))
      else
        let chains := valid.map (fun exp =>
          (get_options_chain env exp input.option_type).map (fun r => (r, exp)))
        if chains.isEmpty then
          .error (.invalidArgument ("No options found for ".toList ++ ticker
            ++ " matching criteria".toList))
        else
          let df0 := chains.flatten
          let df1 := match input.strike_lower with
            | some lo => df0.filter (fun r => decide (lo ≤ r.1.strike))
            | none => df0
          let df2 := match input.strike_upper with
            | some hi => df1.filter (fun r => decide (r.1.strike ≤ hi))
            | none => df1
          let sorted := sortByDesc (fun r => (r.1.openInterest, r.1.volume)) df2
          let subset := sorted.take input.num_options
          .ok ⟨to_clean_csv (optionsFrame subset)⟩

/-- OptionsTool.execute from
investor_agent/tools/options/options.py: validate the ticker outside
the try block, run the body, and re-raise any body failure wrapped in
a descriptive ValueError. The agentic_investor copy differs by one
statement before all of this; see agenticOptionsExecute. -/
def optionsExecute (env : OptionsEnv) (input : OptionsInput) :
    Except VErr OptionsOutput :=
  match validate_ticker input.ticker_symbol with
  | .error e => .error e
  | .ok ticker =>
    match optionsBody env input ticker with
    | .ok out => .ok out
    | .error (.invalidArgument m) =>
      .error (.invalidArgument ("Failed to retrieve options data: ".toList ++ m))

/-- With strike_lower exceeding strike_upper, against a provider
offering at least one expiration inside the requested window and any
chains whatsoever, the investor_agent copy's execute applies both
strike filters — no contract survives them — and completes
successfully: the empty filtered table flows through sorting,
truncation and to_clean_csv, and the call returns the empty CSV
instead of failing. -/
theorem c7_options_strike_filters (env : OptionsEnv) (input : OptionsInput)
    (l u : Int)
    (hl : input.strike_lower = some l) (hu : input.strike_upper = some u)
    (hlt : u < l)
    (ht : pyStrip (strUpper input.ticker_symbol) ≠ [])
    (hd : validate_date_range input.start_date input.end_date = .ok ())
    (hv : env.expirations.filter (expInRange input) ≠ []) :
    optionsExecute env input = .ok ⟨['\n']⟩ := by
  have hexp : env.expirations ≠ [] := by
    intro h
    rw [h] at hv
    exact hv rfl
  have hvt : validate_ticker input.ticker_symbol
      = .ok (pyStrip (strUpper input.ticker_symbol)) := by
    unfold validate_ticker
    rw [if_neg (by simpa [List.isEmpty_iff] using ht)]
  have h1 : env.expirations.isEmpty = false := by
    rcases henv : env.expirations with _ | ⟨a, as⟩
    · exact absurd henv hexp
    · rfl
  have h2 : (env.expirations.filter (expInRange input)).isEmpty = false := by
    rcases hval : env.expirations.filter (expInRange input) with _ | ⟨a, as⟩
    · exact absurd hval hv
    · rfl
  have h3 : ((env.expirations.filter (expInRange input)).map (fun exp =>
      (get_options_chain env exp input.option_type).map
        (fun r => (r, exp)))).isEmpty = false := by
    rcases hval : env.expirations.filter (expInRange input) with _ | ⟨a, as⟩
    · exact absurd hval hv
    · rfl
  have hff : ∀ rows : List (OptRow × List Char),
      (rows.filter (fun r => decide (l ≤ r.1.strike))).filter
        (fun r => decide (r.1.strike ≤ u)) = [] := by
    intro rows
    rw [List.filter_filter]
    refine List.filter_eq_nil_iff.mpr ?_
    intro r _
    simp only [Bool.and_eq_true, decide_eq_true_eq]
    intro h
    omega
  have hcsv : to_clean_csv (optionsFrame []) = ['\n'] := rfl
  have hbody : optionsBody env input (pyStrip (strUpper input.ticker_symbol))
      = .ok ⟨['\n']⟩ := by
    rw [optionsBody, hd]
    simp only [h1, h2, h3, Bool.false_eq_true, if_false, hl, hu]
    rw [hff, show sortByDesc (fun r : OptRow × List Char =>
      (r.1.openInterest, r.1.volume)) [] = [] from rfl, List.take_nil, hcsv]
  simp [optionsExecute, hvt, hbody]

/-- A provider with one expiration and a non-empty chain. -/
def c7Env : OptionsEnv :=
  ⟨["2025-01-17".toList],
   fun _ => ⟨[⟨450, 10, 5⟩], [⟨440, 8, 2⟩]⟩⟩

/-- The claim's example invocation: strike_lower 500 above
strike_upper 400. -/
def c7Input : OptionsInput :=
  ⟨"TSLA".toList, 10, none, none, some 500, some 400, none⟩

/-- c7_options_strike_filters at the claim's example invocation. -/
theorem c7_options_strike_filters_witness :
    optionsExecute c7Env c7Input = .ok ⟨['\n']⟩ :=
  c7_options_strike_filters c7Env c7Input 500 400 rfl rfl (by decide)
    (by decide) rfl (by decide)

/-- Input of the institutional holders tool: ticker and result limit
(schema-constrained to at least 1). -/
structure HoldersInput where
  ticker : List Char
  top_n : Nat

/-- What one holders sub-fetch returns as execute observes it: a
DataFrame, or something else (such as None), which the isinstance
check maps to an absent category. -/
inductive FetchRes where
  | frame : DFrame → FetchRes
  | notFrame : FetchRes

/-- df.head(n): the first n rows of every column. -/
def dfHead (n : Nat) (df : DFrame) : DFrame :=
  ⟨min n df.nrows, df.cols.map (fun c => { c with cells := c.cells.take n })⟩

/-- df.empty: no rows or no columns. -/
def dfEmpty (df : DFrame) : Bool := df.nrows == 0 || df.cols.isEmpty

/-- The result dictionary of the institutional holders tool: ticker,
top_n, and one optional CSV table per holder category, present exactly
when that category arrived non-empty. -/
structure HoldersPayload where
  ticker : List Char
  top_n : Nat
  institutional_holders : Option (List Char)
  mutual_fund_holders : Option (List Char)
deriving DecidableEq

/-- InstitutionalHoldersTool.execute from
investor_agent/tools/institutional_holders: validate the ticker, take
the two fetched categories (a non-DataFrame becomes absent), limit
each to top_n rows, fail with a descriptive error naming the ticker
when both are absent or empty, and otherwise return the payload with
only the present categories' tables. -/
def holdersExecute (instRes fundRes : FetchRes) (input : HoldersInput) :
    Except VErr HoldersPayload :=
  match validate_ticker input.ticker with
  | .error e => .error e
  | .ok ticker =>
    let instH : Option DFrame := match instRes with
      | .frame df => some (dfHead input.top_n df)
      | .notFrame => none
    let fundH : Option DFrame := match fundRes with
      | .frame df => some (dfHead input.top_n df)
      | .notFrame => none
    let instAbsent : Bool := match instH with
      | none => true
      | some df => dfEmpty df
    let fundAbsent : Bool := match fundH with
      | none => true
      | some df => dfEmpty df
    if instAbsent && fundAbsent then
      .error (.invalidArgument
        ("No institutional holder data found for ".toList ++ ticker))
    else
      .ok ⟨ticker, input.top_n,
        (match instH with
         | some df => if dfEmpty df then none else some (to_clean_csv df)
         | none => none),
        (match fundH with
         | some df => if dfEmpty df then none else some (to_clean_csv df)
         | none => none)⟩

/-- A fetched category that is present: a non-empty DataFrame. -/
def present : FetchRes → Bool
  | .frame df => !dfEmpty df
  | .notFrame => false

/-- Taking at least one row preserves emptiness status. -/
theorem dfEmpty_dfHead (n : Nat) (df : DFrame) (hn : 1 ≤ n) :
    dfEmpty (dfHead n df) = dfEmpty df := by
  rw [dfEmpty, dfEmpty, dfHead]
  have h1 : (min n df.nrows == 0) = (df.nrows == 0) := by
    by_cases h : df.nrows = 0
    · rw [h]
      simp
    · have h2 : min n df.nrows ≠ 0 := by omega
      rw [show (min n df.nrows == 0) = false from beq_eq_false_iff_ne.mpr h2,
        show (df.nrows == 0) = false from beq_eq_false_iff_ne.mpr h]
  rw [h1]
  rcases df.cols with _ | ⟨c, cs⟩ <;> rfl

/-- C8: the holders tool tolerates partial results asymmetrically:
when exactly one of the two fetched categories is missing or empty
(after the top_n head, which preserves emptiness for the
schema-guaranteed top_n of at least 1), execute succeeds and the
payload carries only the present category's table; when both are
missing or empty, execute fails with a descriptive error naming the
ticker. -/
theorem c8_institutional_holders (instRes fundRes : FetchRes)
    (input : HoldersInput)
    (ht : pyStrip (strUpper input.ticker) ≠ [])
    (htn : 1 ≤ input.top_n) :
    (present instRes = true → present fundRes = false →
      ∃ p, holdersExecute instRes fundRes input = .ok p
        ∧ p.institutional_holders.isSome = true
        ∧ p.mutual_fund_holders = none)
    ∧ (present instRes = false → present fundRes = true →
      ∃ p, holdersExecute instRes fundRes input = .ok p
        ∧ p.institutional_holders = none
        ∧ p.mutual_fund_holders.isSome = true)
    ∧ (present instRes = false → present fundRes = false →
      holdersExecute instRes fundRes input =
        .error (.invalidArgument
          ("No institutional holder data found for ".toList
            ++ pyStrip (strUpper input.ticker)))) := by
  have hvt : validate_ticker input.ticker
      = .ok (pyStrip (strUpper input.ticker)) := by
    unfold validate_ticker
    rw [if_neg (by simpa [List.isEmpty_iff] using ht)]
  refine ⟨?_, ?_, ?_⟩
  · intro hi hf
    rcases instRes with dfI | _
    · have hie : dfEmpty (dfHead input.top_n dfI) = false := by
        rw [dfEmpty_dfHead _ _ htn]
        simpa [present] using hi
      rcases fundRes with dfF | _
      · have hfe : dfEmpty (dfHead input.top_n dfF) = true := by
          rw [dfEmpty_dfHead _ _ htn]
          simpa [present] using hf
        refine ⟨⟨pyStrip (strUpper input.ticker), input.top_n,
          some (to_clean_csv (dfHead input.top_n dfI)), none⟩, ?_, rfl, rfl⟩
        simp [holdersExecute, hvt, hie, hfe]
      · refine ⟨⟨pyStrip (strUpper input.ticker), input.top_n,
          some (to_clean_csv (dfHead input.top_n dfI)), none⟩, ?_, rfl, rfl⟩
        simp [holdersExecute, hvt, hie]
    · simp [present] at hi
  · intro hi hf
    rcases fundRes with dfF | _
    · have hfe : dfEmpty (dfHead input.top_n dfF) = false := by
        rw [dfEmpty_dfHead _ _ htn]
        simpa [present] using hf
      rcases instRes with dfI | _
      · have hie : dfEmpty (dfHead input.top_n dfI) = true := by
          rw [dfEmpty_dfHead _ _ htn]
          simpa [present] using hi
        refine ⟨⟨pyStrip (strUpper input.ticker), input.top_n,
          none, some (to_clean_csv (dfHead input.top_n dfF))⟩, ?_, rfl, rfl⟩
        simp [holdersExecute, hvt, hie, hfe]
      · refine ⟨⟨pyStrip (strUpper input.ticker), input.top_n,
          none, some (to_clean_csv (dfHead input.top_n dfF))⟩, ?_, rfl, rfl⟩
        simp [holdersExecute, hvt, hfe]
    · simp [present] at hf
  · intro hi hf
    rcases instRes with dfI | _ <;> rcases fundRes with dfF | _
    · have hie : dfEmpty (dfHead input.top_n dfI) = true := by
        rw [dfEmpty_dfHead _ _ htn]
        simpa [present] using hi
      have hfe : dfEmpty (dfHead input.top_n dfF) = true := by
        rw [dfEmpty_dfHead _ _ htn]
        simpa [present] using hf
      simp [holdersExecute, hvt, hie, hfe]
    · have hie : dfEmpty (dfHead input.top_n dfI) = true := by
        rw [dfEmpty_dfHead _ _ htn]
        simpa [present] using hi
      simp [holdersExecute, hvt, hie]
    · have hfe : dfEmpty (dfHead input.top_n dfF) = true := by
        rw [dfEmpty_dfHead _ _ htn]
        simpa [present] using hf
      simp [holdersExecute, hvt, hfe]
    · simp [holdersExecute, hvt]

/-- A non-empty holders frame. -/
def c8Frame : DFrame :=
  ⟨1, [⟨"Holder".toList, Dtype.object, [Cell.txt "Vanguard".toList]⟩]⟩

/-- Witness for c8_institutional_holders: institutional holders
present, mutual-fund holders missing. -/
theorem c8_institutional_holders_witness :
    ∃ p, holdersExecute (FetchRes.frame c8Frame) FetchRes.notFrame
        ⟨"AAPL".toList, 20⟩ = .ok p
      ∧ p.institutional_holders.isSome = true
      ∧ p.mutual_fund_holders = none :=
  (c8_institutional_holders (FetchRes.frame c8Frame) FetchRes.notFrame
    ⟨"AAPL".toList, 20⟩ (by decide) (by decide)).1 (by decide) rfl

/-- Input of the intraday bars tool. -/
structure IntradayInput where
  stock : List Char
  window : Nat

/-- os.getenv over a modelled environment. -/
def getenv (env : List (List Char × List Char)) (k : List Char) :
    Option (List Char) :=
  (env.find? (fun p => p.1 == k)).map (fun p => p.2)

/-- Output shape of the intraday tool: a CSV table or an explanatory
message, both carried in the same field. -/
structure IntradayOutput where
  intraday_data : List Char
deriving Repr, DecidableEq

/-- Rendered bars: a header and one line per (timestamp, close) pair;
the provider-side timestamp conversion and formatting are external and
arrive as strings. -/
def renderBars (stock : List Char) (rows : List (List Char × List Char)) :
    List Char :=
  lineOf ["timestamp".toList, stock]
    ++ (rows.map (fun r => lineOf [r.1, r.2])).flatten

/-- The try-block body of IntradayDataTool.execute: read both
credential environment variables, raise when either is absent or empty
(Python falsiness), then consult the bars provider and raise on an
empty result; any raise here is caught by the surrounding handler. -/
def intradayBody (env : List (List Char × List Char))
    (provider : Except (List Char) (List (List Char × List Char)))
    (input : IntradayInput) : Except (List Char) IntradayOutput :=
  let key := getenv env "ALPACA_API_KEY".toList
  let secret := getenv env "ALPACA_API_SECRET".toList
  if !truthyOpt key || !truthyOpt secret then
    .error ("ALPACA_API_KEY and ALPACA_API_SECRET environment variables"
      ++ " must be set").toList
  else
    match provider with
    | .error e => .error e
    | .ok rows =>
      if rows.isEmpty then
        .error ("'close' column missing or data empty for ".toList
          ++ input.stock)
      else .ok ⟨renderBars input.stock rows⟩

/-- IntradayDataTool.execute from
investor_agent/tools/intraday_data/intraday_data.py: when loading the
provider library fails, a static unavailable message is returned;
otherwise the body runs
and any exception it raises is caught and returned as a
normally-shaped output whose payload is the explanatory message, so
execute never raises. -/
def intradayExecute (alpacaInstalled : Bool)
    (env : List (List Char × List Char))
    (provider : Except (List Char) (List (List Char × List Char)))
    (input : IntradayInput) : IntradayOutput :=
  if !alpacaInstalled then
    ⟨("Alpaca API is not available. Please install alpaca-py package"
      ++ " to use this tool: pip install alpaca-py").toList⟩
  else
    match intradayBody env provider input with
    | .ok out => out
    | .error e =>
      ⟨"Error fetching data for ".toList ++ input.stock ++ ": ".toList ++ e⟩

/-- C9: when either credential variable is absent or empty, execute
returns — for every provider behavior — the static explanatory
response instead of raising (its return type carries no error case:
the catch-all handler converts every body failure into a
normally-shaped output), and a missing library likewise yields the
static unavailable response, leaving the rest of the process
untouched. -/
theorem c9_intraday_credentials (env : List (List Char × List Char))
    (provider : Except (List Char) (List (List Char × List Char)))
    (input : IntradayInput)
    (hmiss : truthyOpt (getenv env "ALPACA_API_KEY".toList) = false
      ∨ truthyOpt (getenv env "ALPACA_API_SECRET".toList) = false) :
    intradayExecute true env provider input =
      ⟨"Error fetching data for ".toList ++ input.stock ++ ": ".toList
        ++ ("ALPACA_API_KEY and ALPACA_API_SECRET environment variables"
          ++ " must be set").toList⟩
    ∧ intradayExecute false env provider input =
      ⟨("Alpaca API is not available. Please install alpaca-py package"
        ++ " to use this tool: pip install alpaca-py").toList⟩ := by
  refine ⟨?_, rfl⟩
  have hcond : (!truthyOpt (getenv env "ALPACA_API_KEY".toList)
      || !truthyOpt (getenv env "ALPACA_API_SECRET".toList)) = true := by
    rcases hmiss with h | h
    · rw [h]
      rfl
    · rw [h]
      simp only [Bool.not_false, Bool.or_true]
  have hbody : intradayBody env provider input =
      .error ("ALPACA_API_KEY and ALPACA_API_SECRET environment variables"
        ++ " must be set").toList := by
    simp only [intradayBody]
    rw [if_pos hcond]
  rw [intradayExecute, if_neg (by decide), hbody]

/-- An environment with an empty key and no secret. -/
def c9Env : List (List Char × List Char) :=
  [("ALPACA_API_KEY".toList, [])]

/-- Witness for c9_intraday_credentials at a concrete environment. -/
theorem c9_intraday_credentials_witness :
    intradayExecute true c9Env (.ok []) ⟨"AAPL".toList, 200⟩ =
      ⟨"Error fetching data for ".toList ++ "AAPL".toList ++ ": ".toList
        ++ ("ALPACA_API_KEY and ALPACA_API_SECRET environment variables"
          ++ " must be set").toList⟩ :=
  (c9_intraday_credentials c9Env (.ok []) ⟨"AAPL".toList, 200⟩
    (Or.inl (by decide))).1

/-- An exception as the options tool can raise it: a ValueError, or an
AttributeError from reading an undeclared model attribute. -/
inductive PyError where
  | valueError : List Char → PyError
  | attributeError : List Char → PyError
deriving Repr, DecidableEq

/-- The declared fields of the agentic_investor OptionsInput model
(tools/options/models.py): these are the only attributes an instance
carries. -/
def optionsInputAttrs : List (List Char) :=
  ["ticker_symbol".toList, "num_options".toList, "start_date".toList,
   "end_date".toList, "strike_lower".toList, "strike_upper".toList,
   "option_type".toList]

/-- Attribute lookup on an OptionsInput instance: accessing a name
outside the declared field set raises AttributeError. -/
def optionsInputHasAttr (name : List Char) : Bool :=
  optionsInputAttrs.any (fun a => a == name)

/-- OptionsTool.execute from
agentic_investor/tools/options/options.py: before the ticker
validation and the try block, the debug call evaluates an f-string
reading input_data.expiration_date; when that attribute is undeclared
— as it is in the OptionsInput model — the access raises
AttributeError and nothing later runs. The remainder is the same logic
as the investor_agent copy, with body failures re-raised as
ValueError. -/
def agenticOptionsExecute (env : OptionsEnv) (input : OptionsInput) :
    Except PyError OptionsOutput :=
  if optionsInputHasAttr "expiration_date".toList then
    match optionsExecute env input with
    | .ok out => .ok out
    | .error (.invalidArgument m) => .error (.valueError m)
  else
    .error (.attributeError
      "'OptionsInput' object has no attribute 'expiration_date'".toList)

/-- C7: at the claim's example invocation (strike_lower 500 above
strike_upper 400, a provider with a non-empty chain), the
investor_agent copy of execute behaves as the claim says — both strike
filters apply and the empty result flows through sorting, truncation
and to_clean_csv into a successful empty-CSV response — but the
agentic_investor copy raises AttributeError before reaching the strike
filters, on every invocation, because its pre-try debug f-string reads
the expiration_date attribute that its input model does not declare. -/
theorem c7_agentic_attribute_error :
    agenticOptionsExecute c7Env c7Input =
      .error (.attributeError
        "'OptionsInput' object has no attribute 'expiration_date'".toList)
    ∧ optionsExecute c7Env c7Input = .ok ⟨['\n']⟩ :=
  ⟨rfl, rfl⟩
